import Mathlib

/-!
# Verification of the proc_dash data-transformation and filter engine

A shallow embedding of the core of `proc_dash/utility.py` (and the one caller
detail of `proc_dash/app.py` that matters for the no-criteria guard), together
with theorems settling the frozen claims about it.

Tables are embedded as Lean lists of typed rows:

* a long-form "bagel" row (`BagelRow`) carries participant id, session,
  pipeline name, pipeline version and completion status; sessions are numeric
  in the data the app handles (the query strings interpolate them unquoted),
  so the session field is a `Nat`;
* a per-pipeline sub-table row (`PipelineRow`) is a bagel row with the two
  grouping columns dropped, as produced by `extract_pipelines`;
* a wide overview row (`WideRow`) is one row of the `pivot` result of
  `get_pipelines_overview`: the identity key plus one optional status cell per
  pipeline label;
* the overview table consumed by `filter_records` is a list of `OverviewRow`,
  whose per-pipeline status cells are an association list from pipeline label
  to status;
* `DFrame` is an untyped column-labelled table used for the summary-count
  functions, whose behaviour depends on column presence.

Fallible operations return `Except`: `FilterError` stands for the exceptions
`pandas.DataFrame.query` raises inside `filter_records` (the empty query
string, and the unbound `query` variable on an unrecognized operator), and
`IngestError` for the error paths of `parse_csv_contents` (non-CSV filename,
pipeline consistency failure) plus the `ValueError` the ambiguous `pivot`
raises in `get_pipelines_overview`.
-/

namespace ProcDash

/-! ## Generic list helpers (substring test, insertion sort) -/

/-- `startsWithChars pat l` tests whether `pat` is an initial segment of `l`. -/
def startsWithChars : List Char → List Char → Bool
  | [], _ => true
  | _ :: _, [] => false
  | p :: ps, c :: cs => p == c && startsWithChars ps cs

/-- `containsChars pat l` tests whether `pat` occurs contiguously inside `l`
(the semantics of Python's `pat in str`). -/
def containsChars (pat : List Char) : List Char → Bool
  | [] => startsWithChars pat []
  | c :: cs => startsWithChars pat (c :: cs) || containsChars pat cs

/-- Python's `sub in s` substring test, specialised to strings. -/
def strContains (s sub : String) : Bool :=
  containsChars sub.toList s.toList

/-- Insert `a` into `l` in front of the first element it is `le`-below. -/
def insertSorted (le : α → α → Bool) (a : α) : List α → List α
  | [] => [a]
  | b :: l => if le a b then a :: b :: l else b :: insertSorted le a l

/-- Insertion sort; stand-in for the ascending sorts done by
`DataFrame.sort_values`, `pivot` and `sorted` in the source. -/
def sortBy (le : α → α → Bool) (l : List α) : List α :=
  l.foldr (insertSorted le) []

/-! ## Comparison functions for the sort keys the source uses

Python / pandas compare strings lexicographically by code point; the
comparisons are defined here directly over character lists so that they
evaluate inside the kernel. -/

/-- Strict lexicographic code-point order on character lists. -/
def charListLt : List Char → List Char → Bool
  | [], [] => false
  | [], _ :: _ => true
  | _ :: _, [] => false
  | a :: as, b :: bs =>
    if a.toNat < b.toNat then true
    else if b.toNat < a.toNat then false
    else charListLt as bs

/-- Python's strict string order (lexicographic on code points). -/
def strLt (a b : String) : Bool := charListLt a.toList b.toList

/-- Non-strict string order. -/
def strLe (a b : String) : Bool := strLt a b || decide (a = b)

/-- The `(participant, session)` sort key order: strict string order on the
participant id, then numeric session order. -/
def idLe (a b : String × Nat) : Bool :=
  strLt a.1 b.1 || (decide (a.1 = b.1) && decide (a.2 ≤ b.2))

/-- The `(pipeline_name, pipeline_version)` groupby key order. -/
def keyLe (a b : String × String) : Bool :=
  strLt a.1 b.1 || (decide (a.1 = b.1) && strLe a.2 b.2)

/-! ## Data model -/

/-- One row of the long-form bagel input (`bagel.csv` after `pd.read_csv`).
The optional `bids_id` column of the source is not modelled: the identity key
is therefore always `(participant_id, session)`, the branch `get_id_columns`
takes when no `bids_id` column is present. -/
structure BagelRow where
  participant_id : String
  session : Nat
  pipeline_name : String
  pipeline_version : String
  pipeline_complete : String
deriving DecidableEq, Repr

/-- One row of a per-pipeline sub-table: a bagel row with the
`pipeline_name` and `pipeline_version` columns dropped
(`extract_pipelines`). -/
structure PipelineRow where
  participant_id : String
  session : Nat
  pipeline_complete : String
deriving DecidableEq, Repr

/-- One row of the wide overview produced by `get_pipelines_overview`: the
identity key plus one status cell per pipeline-label column (a cell is `none`
where the pivot has no value). -/
structure WideRow where
  participant_id : String
  session : Nat
  cells : List (String × Option String)
deriving DecidableEq, Repr

/-- One row of the overview table as consumed by `filter_records`: identity
key plus an association list from pipeline label to completion status. -/
structure OverviewRow where
  participant_id : String
  session : Nat
  statuses : List (String × String)
deriving DecidableEq, Repr

/-- An untyped column-labelled table (the `pd.DataFrame` surface the summary
counts are computed over, where behaviour depends on column presence). -/
structure DFrame where
  columns : List String
  rows : List (List String)
deriving DecidableEq, Repr

/-- Failures of `parse_csv_contents` and of the pivot inside it:
`formatError` is the "Input file is not a .csv file." message,
`consistencyError` the "pipelines ... do not have the same number of subjects
and sessions." message, and `shapeError` the `ValueError` pandas raises when
`pivot` meets a duplicate (index, column) pair. -/
inductive IngestError
  | formatError
  | consistencyError
  | shapeError
deriving DecidableEq, Repr

/-- Failures of `filter_records`: `emptyQuery` is the `ValueError` raised by
`DataFrame.query("")` when no criterion produced a query fragment;
`invalidOperator` is the `UnboundLocalError` raised when sessions are selected
but the operator is neither AND nor OR, so `query` is never assigned. -/
inductive FilterError
  | emptyQuery
  | invalidOperator
deriving DecidableEq, Repr

/-- The identity-key projection of a bagel row (`get_id_columns` without a
`bids_id` column). -/
def idPair (r : BagelRow) : String × Nat := (r.participant_id, r.session)

/-- The grouping key of `extract_pipelines`: `(pipeline_name, pipeline_version)`. -/
def pKey (r : BagelRow) : String × String := (r.pipeline_name, r.pipeline_version)

/-- Drop the two grouping columns from a bagel row. -/
def dropPipe (r : BagelRow) : PipelineRow :=
  ⟨r.participant_id, r.session, r.pipeline_complete⟩

/-- `sort_values(["participant_id", "session"])` comparison on bagel rows. -/
def rowLe (a b : BagelRow) : Bool := idLe (idPair a) (idPair b)

/-- The identity-key projection of a per-pipeline row (what
`df.loc[:, get_id_columns(bagel)]` keeps). -/
def pRowPair (r : PipelineRow) : String × Nat := (r.participant_id, r.session)

/-- `"{name}-{version}"`. -/
def pipelineLabel (nv : String × String) : String := nv.1 ++ "-" ++ nv.2

/-! ## Embedding of `utility.py` -/

/-- The distinct `(pipeline_name, pipeline_version)` pairs of the input, in
the sorted order `DataFrame.groupby` iterates group keys. -/
def pipelineKeys (bagel : List BagelRow) : List (String × String) :=
  sortBy keyLe (bagel.map pKey).dedup

/-- `extract_pipelines`: one labelled sub-table per distinct
`(pipeline_name, pipeline_version)` pair; rows of each group sorted by
`(participant_id, session)` and the grouping columns dropped. -/
def extract_pipelines (bagel : List BagelRow) : List (String × List PipelineRow) :=
  (pipelineKeys bagel).map (fun nv =>
    (pipelineLabel nv,
     (sortBy rowLe (bagel.filter (fun r => decide (pKey r = nv)))).map dropPipe))

/-- The identity-key projections `df.loc[:, get_id_columns(bagel)]` of the
per-pipeline sub-tables, in pipeline order. -/
def idProjections (bagel : List BagelRow) : List (List (String × Nat)) :=
  (extract_pipelines bagel).map (fun p => p.2.map pRowPair)

/-- `are_subjects_same_across_pipelines`: every per-pipeline identity
projection `.equals` the first one (vacuously true when there are no
pipelines, as Python's `all` over an empty generator). -/
def are_subjects_same_across_pipelines (bagel : List BagelRow) : Bool :=
  match idProjections bagel with
  | [] => true
  | p0 :: rest => (p0 :: rest).all (fun pr => decide (pr = p0))

/-- `count_unique_subjects`: `nunique` of the `participant_id` column when it
exists, else 0. -/
def count_unique_subjects (data : DFrame) : Nat :=
  match data.columns.findIdx? (fun c => decide (c = "participant_id")) with
  | some i => ((data.rows.map (fun r => r.getD i "")).dedup).length
  | none => 0

/-- `count_unique_records`: number of distinct `(participant_id, session)`
pairs when both columns exist, else 0. -/
def count_unique_records (data : DFrame) : Nat :=
  match data.columns.findIdx? (fun c => decide (c = "participant_id")),
        data.columns.findIdx? (fun c => decide (c = "session")) with
  | some i, some j =>
      ((data.rows.map (fun r => (r.getD i "", r.getD j ""))).dedup).length
  | _, _ => 0

/-- The `data["session"].nunique()` count used by `construct_summary_str`;
`none` models the `KeyError` raised when the column is absent. -/
def session_nunique (data : DFrame) : Option Nat :=
  (data.columns.findIdx? (fun c => decide (c = "session"))).map
    (fun j => ((data.rows.map (fun r => r.getD j "")).dedup).length)

/-- The full pivot key of `get_pipelines_overview`:
(identity key, (pipeline name, pipeline version)). -/
def pivotKey (r : BagelRow) : (String × Nat) × (String × String) := (idPair r, pKey r)

/-- The distinct identity-key values of the input, sorted ascending: the row
index of the pivot result. -/
def sortedIds (bagel : List BagelRow) : List (String × Nat) :=
  sortBy idLe (bagel.map idPair).dedup

/-- The distinct pipeline labels, sorted: the column order after the
`reindex(sorted(...))` step. -/
def sortedLabels (bagel : List BagelRow) : List String :=
  sortBy strLe (bagel.map (fun r => pipelineLabel (pKey r))).dedup

/-- The status landing in the overview cell for identity key `idv` and
pipeline label `lab`, if any row carries it. -/
def cellValue (bagel : List BagelRow) (idv : String × Nat) (lab : String) :
    Option String :=
  (bagel.find? (fun r =>
    decide (idPair r = idv) && decide (pipelineLabel (pKey r) = lab))).map
    (fun r => r.pipeline_complete)

/-- `get_pipelines_overview`: pivot the long table to one wide row per
distinct identity key, one column per pipeline label; pandas `pivot` raises
(`shapeError`) whenever the full pivot key is duplicated. -/
def get_pipelines_overview (bagel : List BagelRow) :
    Except IngestError (List WideRow) :=
  if (bagel.map pivotKey).Nodup then
    .ok ((sortedIds bagel).map (fun idv =>
      ⟨idv.1, idv.2,
       (sortedLabels bagel).map (fun lab => (lab, cellValue bagel idv lab))⟩))
  else
    .error .shapeError

/-- `parse_csv_contents`, with the decoded CSV body abstracted to the row
list `read_csv` would yield. The schema check
(`get_missing_required_columns`) cannot fire in this embedding because
`BagelRow` is typed with every required column present, so it is elided. The
filename gate is Python's `".csv" in filename` substring test. -/
def parse_csv_contents (filename : String) (bagel : List BagelRow) :
    Except IngestError (List WideRow × List (String × List PipelineRow)) :=
  if strContains filename ".csv" then
    if are_subjects_same_across_pipelines bagel then
      match get_pipelines_overview bagel with
      | .ok overview_df => .ok (overview_df, extract_pipelines bagel)
      | .error e => .error e
    else .error .consistencyError
  else .error .formatError

/-- The per-pipeline equality fragments of the query
(`` `pipeline` == repr(status) `` for each constrained pipeline). -/
def pipelineQueries (status_values : List (String × Option String)) :
    List (String × String) :=
  status_values.filterMap (fun pv => pv.2.map (fun s => (pv.1, s)))

/-- A row satisfies every pipeline-status equality fragment. -/
def rowMatchesQueries (r : OverviewRow) (qs : List (String × String)) : Bool :=
  qs.all (fun q => decide (r.statuses.lookup q.1 = some q.2))

/-- The rows of one `groupby("participant_id")` group. -/
def sub_of (data : List OverviewRow) (pid : String) : List OverviewRow :=
  data.filter (fun r => decide (r.participant_id = pid))

/-- The per-participant test of the AND branch: every selected session occurs
in the group (`session in sub["session"].unique()`), and for every selected
session the group's query `session == s and <pipeline fragments>` is
non-empty. -/
def subQualifies (session_values : List Nat) (qs : List (String × String))
    (sub : List OverviewRow) : Bool :=
  session_values.all (fun s => decide (s ∈ (sub.map (fun r => r.session)).dedup)) &&
  session_values.all (fun s =>
    !((sub.filter (fun r => decide (r.session = s) && rowMatchesQueries r qs)).isEmpty))

/-- `matching_subs`: the participant ids (in the sorted order `groupby`
iterates) whose group passes `subQualifies`. -/
def matching_subs (data : List OverviewRow) (session_values : List Nat)
    (qs : List (String × String)) : List String :=
  (sortBy strLe (data.map (fun r => r.participant_id)).dedup).filter
    (fun pid => subQualifies session_values qs (sub_of data pid))

/-- `filter_records`. The three query-construction branches of the source,
with `data.query(query)` evaluated semantically: the no-criteria branch
builds the empty query string (a `ValueError`, `emptyQuery`), and an operator
other than AND / OR leaves `query` unassigned (`invalidOperator`). -/
def filter_records (data : List OverviewRow) (session_values : List Nat)
    (operator_value : String) (status_values : List (String × Option String)) :
    Except FilterError (List OverviewRow) :=
  let pipeline_queries := pipelineQueries status_values
  if session_values.isEmpty then
    if pipeline_queries.isEmpty then .error .emptyQuery
    else .ok (data.filter (fun r => rowMatchesQueries r pipeline_queries))
  else if operator_value = "AND" then
    .ok (data.filter (fun r =>
      decide (r.participant_id ∈ matching_subs data session_values pipeline_queries) &&
      decide (r.session ∈ session_values)))
  else if operator_value = "OR" then
    .ok (data.filter (fun r =>
      decide (r.session ∈ session_values) && rowMatchesQueries r pipeline_queries))
  else .error .invalidOperator

/-- Render a filtered overview back as a column-labelled table (what
`update_outputs` hands to the datatable): identity columns followed by the
pipeline-label columns. -/
def toDF (pipelines : List String) (rows : List OverviewRow) : DFrame :=
  ⟨"participant_id" :: "session" :: pipelines,
   rows.map (fun r => r.participant_id :: toString r.session ::
     pipelines.map (fun p => (r.statuses.lookup p).getD ""))⟩

/-! ## Spec-side predicates

These are written from the specification words, to be compared with the
embedded code above. -/

/-- Spec wording: "per-pipeline status constraints are always applied as
independent equality predicates when present; absent constraints impose no
restriction". -/
def rowSatisfiesConstraints (r : OverviewRow)
    (status_values : List (String × Option String)) : Bool :=
  status_values.all (fun pv =>
    match pv.2 with
    | none => true
    | some st => decide (r.statuses.lookup pv.1 = some st))

/-- Spec wording for the AND branch: "a participant is retained only if, for
every selected session, there exists a row for that participant at that
session satisfying all pipeline-status predicates". -/
def participantQualifies (data : List OverviewRow) (session_values : List Nat)
    (status_values : List (String × Option String)) (pid : String) : Bool :=
  session_values.all (fun s => data.any (fun r =>
    decide (r.participant_id = pid) && decide (r.session = s) &&
    rowSatisfiesConstraints r status_values))

/-- Well-formedness of a filter call: every constrained pipeline label is an
actual column of every row. Pandas would raise an `UndefinedVariableError`
on a query naming a non-existent column; the association-list embedding is
only faithful on this domain. -/
def ConstraintsWellFormed (data : List OverviewRow)
    (status_values : List (String × Option String)) : Prop :=
  ∀ r ∈ data, ∀ pv ∈ status_values, pv.2.isSome = true →
    (r.statuses.lookup pv.1).isSome = true

/-- The row predicate each non-raising branch of `filter_records` filters
by (read off the three query shapes the source can build). -/
def criteriaPred (data : List OverviewRow) (session_values : List Nat)
    (operator_value : String) (status_values : List (String × Option String))
    (r : OverviewRow) : Bool :=
  if session_values.isEmpty then
    rowMatchesQueries r (pipelineQueries status_values)
  else if operator_value = "AND" then
    decide (r.participant_id ∈ matching_subs data session_values (pipelineQueries status_values)) &&
    decide (r.session ∈ session_values)
  else
    decide (r.session ∈ session_values) &&
    rowMatchesQueries r (pipelineQueries status_values)

/-! ## Concrete datasets used by the claims -/

/-- P1 at session 1, single pipeline, SUCCESS. -/
def p1s1 : OverviewRow := ⟨"P1", 1, [("fmriprep-20.2.7", "SUCCESS")]⟩

/-- P1 at session 2, single pipeline, SUCCESS. -/
def p1s2 : OverviewRow := ⟨"P1", 2, [("fmriprep-20.2.7", "SUCCESS")]⟩

/-- P2 at session 1 (P2 has no session 2), single pipeline, SUCCESS. -/
def p2s1 : OverviewRow := ⟨"P2", 1, [("fmriprep-20.2.7", "SUCCESS")]⟩

/-- The P1/P2 overview table of the AND/OR correctness properties. -/
def exData : List OverviewRow := [p1s1, p1s2, p2s1]

/-- The pipeline-status dropdown selection: fmriprep constrained to SUCCESS. -/
def exStatus : List (String × Option String) := [("fmriprep-20.2.7", some "SUCCESS")]

/-- The {A,A,B} × {1,2,1} summary example table. -/
def exSummary : DFrame :=
  ⟨["participant_id", "session"], [["A", "1"], ["A", "2"], ["B", "1"]]⟩

/-- A long-form bagel: two pipelines, two participants, one session each. -/
def exBagel : List BagelRow :=
  [⟨"X", 1, "fmriprep", "20.2.7", "SUCCESS"⟩,
   ⟨"Y", 1, "fmriprep", "20.2.7", "FAIL"⟩,
   ⟨"X", 1, "freesurfer", "6.0.1", "SUCCESS"⟩,
   ⟨"Y", 1, "freesurfer", "6.0.1", "SUCCESS"⟩]

/-- A bagel where pipeline fmriprep covers participant X at session 1 but
freesurfer does not: the consistency-check failure dataset. -/
def exBagelInconsistent : List BagelRow :=
  [⟨"X", 1, "fmriprep", "20.2.7", "SUCCESS"⟩,
   ⟨"Y", 1, "fmriprep", "20.2.7", "SUCCESS"⟩,
   ⟨"Y", 1, "freesurfer", "6.0.1", "SUCCESS"⟩]

/-- A bagel with two rows of identical (participant, session, pipeline name,
pipeline version) but different completion statuses: the ambiguous-pivot
dataset. -/
def exBagelDup : List BagelRow :=
  [⟨"X", 1, "fmriprep", "20.2.7", "SUCCESS"⟩,
   ⟨"X", 1, "fmriprep", "20.2.7", "FAIL"⟩]

/-! ## Lemmas about the generic helpers and comparisons -/

theorem perm_insertSorted (le : α → α → Bool) (a : α) (l : List α) :
    List.Perm (insertSorted le a l) (a :: l) := by
  induction l with
  | nil => simp [insertSorted]
  | cons b t ih =>
    simp only [insertSorted]
    by_cases h : le a b = true
    · simp [h]
    · simp only [h, if_false]
      exact (ih.cons b).trans (List.Perm.swap a b t)

theorem perm_sortBy (le : α → α → Bool) (l : List α) : List.Perm (sortBy le l) l := by
  induction l with
  | nil => simp [sortBy]
  | cons a t ih =>
    exact (perm_insertSorted le a (sortBy le t)).trans (ih.cons a)

theorem mem_sortBy {le : α → α → Bool} {l : List α} {a : α} :
    a ∈ sortBy le l ↔ a ∈ l :=
  (perm_sortBy le l).mem_iff

theorem pairwise_insertSorted {le : α → α → Bool}
    (htot : ∀ a b, le a b = false → le b a = true)
    (htrans : ∀ a b c, le a b = true → le b c = true → le a c = true)
    (a : α) {l : List α}
    (h : l.Pairwise (fun x y => le x y = true)) :
    (insertSorted le a l).Pairwise (fun x y => le x y = true) := by
  induction l with
  | nil => simp [insertSorted]
  | cons b t ih =>
    rcases List.pairwise_cons.mp h with ⟨hb, ht⟩
    simp only [insertSorted]
    by_cases hab : le a b = true
    · simp only [hab, if_true]
      refine List.pairwise_cons.mpr ⟨?_, h⟩
      intro x hx
      rcases List.mem_cons.mp hx with rfl | hx
      · exact hab
      · exact htrans a b x hab (hb x hx)
    · simp only [hab, if_false]
      refine List.pairwise_cons.mpr ⟨?_, ih ht⟩
      intro x hx
      rcases List.mem_cons.mp ((perm_insertSorted le a t).mem_iff.mp hx) with hxa | h1
      · rw [hxa]; exact htot a b (by simpa using hab)
      · exact hb x h1

theorem pairwise_sortBy {le : α → α → Bool}
    (htot : ∀ a b, le a b = false → le b a = true)
    (htrans : ∀ a b c, le a b = true → le b c = true → le a c = true)
    (l : List α) :
    (sortBy le l).Pairwise (fun x y => le x y = true) := by
  induction l with
  | nil => simp [sortBy]
  | cons a t ih => exact pairwise_insertSorted htot htrans a ih

theorem nodup_sortBy {le : α → α → Bool} {l : List α} :
    (sortBy le l).Nodup ↔ l.Nodup :=
  (perm_sortBy le l).nodup_iff

theorem charListLt_irrefl : ∀ l : List Char, charListLt l l = false := by
  intro l
  induction l with
  | nil => rfl
  | cons a as ih => simp [charListLt, ih]

theorem charListLt_asymm : ∀ l1 l2 : List Char,
    charListLt l1 l2 = true → charListLt l2 l1 = false := by
  intro l1
  induction l1 with
  | nil =>
    intro l2 h
    cases l2 with
    | nil => exact absurd h (by simp [charListLt])
    | cons b bs => rfl
  | cons a as ih =>
    intro l2 h
    cases l2 with
    | nil => exact absurd h (by simp [charListLt])
    | cons b bs =>
      simp only [charListLt] at h ⊢
      by_cases hab : a.toNat < b.toNat
      · simp [hab, Nat.lt_asymm hab]
      · by_cases hba : b.toNat < a.toNat
        · simp [hab, hba] at h
        · simp only [hab, hba, if_false] at h ⊢
          simp [ih bs h]

theorem charListLt_trichotomy : ∀ l1 l2 : List Char,
    charListLt l1 l2 = true ∨ l1 = l2 ∨ charListLt l2 l1 = true := by
  intro l1
  induction l1 with
  | nil =>
    intro l2
    cases l2 with
    | nil => exact Or.inr (Or.inl rfl)
    | cons b bs => exact Or.inl rfl
  | cons a as ih =>
    intro l2
    cases l2 with
    | nil => exact Or.inr (Or.inr rfl)
    | cons b bs =>
      by_cases hab : a.toNat < b.toNat
      · exact Or.inl (by simp [charListLt, hab])
      · by_cases hba : b.toNat < a.toNat
        · exact Or.inr (Or.inr (by simp [charListLt, hba]))
        · have hchar : a = b := by
            apply Char.ext
            apply UInt32.ext
            exact Nat.le_antisymm (Nat.le_of_not_lt hba) (Nat.le_of_not_lt hab)
          rcases ih bs with h | h | h
          · exact Or.inl (by simp [charListLt, hab, hba, h])
          · exact Or.inr (Or.inl (by rw [hchar, h]))
          · refine Or.inr (Or.inr ?_)
            have hstep : charListLt (b :: bs) (a :: as) =
                (if b.toNat < a.toNat then true
                 else if a.toNat < b.toNat then false else charListLt bs as) := rfl
            rw [hstep, if_neg hba, if_neg hab]
            exact h

theorem charListLt_trans : ∀ l1 l2 l3 : List Char,
    charListLt l1 l2 = true → charListLt l2 l3 = true → charListLt l1 l3 = true := by
  intro l1
  induction l1 with
  | nil =>
    intro l2 l3 h12 h23
    cases l2 with
    | nil => exact absurd h12 (by simp [charListLt])
    | cons b bs =>
      cases l3 with
      | nil => exact absurd h23 (by simp [charListLt])
      | cons c cs => rfl
  | cons a as ih =>
    intro l2 l3 h12 h23
    cases l2 with
    | nil => exact absurd h12 (by simp [charListLt])
    | cons b bs =>
      cases l3 with
      | nil => exact absurd h23 (by simp [charListLt])
      | cons c cs =>
        simp only [charListLt] at h12 h23 ⊢
        by_cases hab : a.toNat < b.toNat <;> by_cases hbc : b.toNat < c.toNat
        · simp [Nat.lt_trans hab hbc]
        · by_cases hcb : c.toNat < b.toNat
          · simp [hbc, hcb] at h23
          · have hbceq : b.toNat = c.toNat :=
              Nat.le_antisymm (Nat.le_of_not_lt hcb) (Nat.le_of_not_lt hbc)
            rw [← hbceq]
            simp [hab]
        · by_cases hba : b.toNat < a.toNat
          · simp [hab, hba] at h12
          · have habeq : a.toNat = b.toNat :=
              Nat.le_antisymm (Nat.le_of_not_lt hba) (Nat.le_of_not_lt hab)
            rw [habeq]
            simp [hbc]
        · by_cases hba : b.toNat < a.toNat
          · simp [hab, hba] at h12
          · by_cases hcb : c.toNat < b.toNat
            · simp [hbc, hcb] at h23
            · have habeq : a.toNat = b.toNat :=
                Nat.le_antisymm (Nat.le_of_not_lt hba) (Nat.le_of_not_lt hab)
              have hbceq : b.toNat = c.toNat :=
                Nat.le_antisymm (Nat.le_of_not_lt hcb) (Nat.le_of_not_lt hbc)
              simp only [hab, hba, if_false] at h12
              simp only [hbc, hcb, if_false] at h23
              have hac : ¬ a.toNat < c.toNat := by rw [habeq, hbceq]; exact Nat.lt_irrefl _
              have hca : ¬ c.toNat < a.toNat := by rw [habeq, hbceq]; exact Nat.lt_irrefl _
              simp [hac, hca, ih bs cs h12 h23]

theorem strLt_trichotomy (a b : String) :
    strLt a b = true ∨ a = b ∨ strLt b a = true := by
  rcases charListLt_trichotomy a.toList b.toList with h | h | h
  · exact Or.inl h
  · exact Or.inr (Or.inl (String.ext h))
  · exact Or.inr (Or.inr h)

theorem strLt_irrefl (a : String) : strLt a a = false := charListLt_irrefl _

theorem strLt_asymm {a b : String} (h : strLt a b = true) : strLt b a = false :=
  charListLt_asymm _ _ h

theorem strLt_trans {a b c : String} (h1 : strLt a b = true) (h2 : strLt b c = true) :
    strLt a c = true := charListLt_trans _ _ _ h1 h2

theorem idLe_total : ∀ a b : String × Nat, idLe a b = false → idLe b a = true := by
  intro a b h
  simp only [idLe, Bool.or_eq_false_iff, Bool.and_eq_false_iff,
    decide_eq_false_iff_not] at h
  rcases h with ⟨h1, h2⟩
  rcases strLt_trichotomy a.1 b.1 with h3 | h3 | h3
  · exact absurd h3 (by simp [h1])
  · rcases h2 with h2 | h2
    · exact absurd h3 h2
    · have : b.2 ≤ a.2 := Nat.le_of_lt (Nat.lt_of_not_le (by simpa using h2))
      simp [idLe, h3.symm, this]
  · simp [idLe, h3]

theorem idLe_trans : ∀ a b c : String × Nat,
    idLe a b = true → idLe b c = true → idLe a c = true := by
  intro a b c hab hbc
  simp only [idLe, Bool.or_eq_true, Bool.and_eq_true, decide_eq_true_eq] at *
  rcases hab with h1 | ⟨h1, h2⟩ <;> rcases hbc with h3 | ⟨h3, h4⟩
  · exact Or.inl (strLt_trans h1 h3)
  · exact Or.inl (h3 ▸ h1)
  · exact Or.inl (h1 ▸ h3)
  · exact Or.inr ⟨h1.trans h3, h2.trans h4⟩

theorem idLe_antisymm : ∀ a b : String × Nat,
    idLe a b = true → idLe b a = true → a = b := by
  intro a b hab hba
  simp only [idLe, Bool.or_eq_true, Bool.and_eq_true, decide_eq_true_eq] at *
  rcases hab with h1 | ⟨h1, h2⟩ <;> rcases hba with h3 | ⟨h3, h4⟩
  · exact absurd h3 (by simp [strLt_asymm h1])
  · rw [h3] at h1; exact absurd h1 (by simp [strLt_irrefl])
  · rw [h1] at h3; exact absurd h3 (by simp [strLt_irrefl])
  · exact Prod.ext h1 (le_antisymm h2 h4)

/-- `sort_values(["participant_id","session"])` comparison is total. -/
theorem rowLe_total : ∀ a b : BagelRow, rowLe a b = false → rowLe b a = true :=
  fun a b h => idLe_total (idPair a) (idPair b) h

/-- `sort_values(["participant_id","session"])` comparison is transitive. -/
theorem rowLe_trans : ∀ a b c : BagelRow,
    rowLe a b = true → rowLe b c = true → rowLe a c = true :=
  fun a b c h1 h2 => idLe_trans (idPair a) (idPair b) (idPair c) h1 h2

/-- Two sorted lists that are permutations of each other are equal
(the `(participant, session)` order is antisymmetric). -/
theorem eq_of_perm_of_pairwise_idLe {l₁ l₂ : List (String × Nat)}
    (hp : List.Perm l₁ l₂)
    (h₁ : l₁.Pairwise (fun x y => idLe x y = true))
    (h₂ : l₂.Pairwise (fun x y => idLe x y = true)) : l₁ = l₂ :=
  @List.eq_of_perm_of_sorted _ (fun x y => idLe x y = true) ⟨idLe_antisymm⟩ _ _ hp h₁ h₂

/-! ## A grouping partition lemma

`extract_pipelines` groups the rows of the long-form table by a key; the
concatenation of the groups, with any per-group reordering `h` that is a
permutation of a per-row `f`-image, is a permutation of the `f`-image of the
input. Specialised later to show row conservation of the grouping. -/

theorem join_groups_perm {α κ β : Type _} [DecidableEq κ] (key : α → κ)
    (h : List α → List β) (f : α → β)
    (hh : ∀ g : List α, List.Perm (h g) (g.map f)) :
    ∀ (keys : List κ) (l : List α), keys.Nodup → (∀ r ∈ l, key r ∈ keys) →
      List.Perm ((keys.map (fun k => h (l.filter (fun r => decide (key r = k))))).flatten)
        (l.map f) := by
  intro keys
  induction keys with
  | nil =>
    intro l _ hcov
    have hl : l = [] := by
      cases l with
      | nil => rfl
      | cons a t => exact absurd (hcov a (by simp)) (by simp)
    simp [hl]
  | cons k ks ih =>
    intro l hnd hcov
    rcases List.nodup_cons.mp hnd with ⟨hk, hks⟩
    have hrest : ∀ k' ∈ ks,
        l.filter (fun r => decide (key r = k')) =
          (l.filter (fun r => !decide (key r = k))).filter
            (fun r => decide (key r = k')) := by
      intro k' hk'
      rw [List.filter_filter]
      apply List.filter_congr
      intro r _
      cases hrk : decide (key r = k') with
      | false => simp
      | true =>
        have : key r = k' := of_decide_eq_true hrk
        have : ¬(key r = k) := by
          rw [this]; intro hc; exact hk (hc ▸ hk')
        simp [this]
    have hmapeq :
        ks.map (fun k' => h (l.filter (fun r => decide (key r = k')))) =
          ks.map (fun k' => h ((l.filter (fun r => !decide (key r = k))).filter
            (fun r => decide (key r = k')))) := by
      apply List.map_congr_left
      intro k' hk'
      rw [hrest k' hk']
    have hcov' : ∀ r ∈ l.filter (fun r => !decide (key r = k)), key r ∈ ks := by
      intro r hr
      rcases List.mem_filter.mp hr with ⟨hrl, hrk⟩
      rcases List.mem_cons.mp (hcov r hrl) with hc | hc
      · exact absurd (decide_eq_true hc) (by simpa using hrk)
      · exact hc
    have htail := ih (l.filter (fun r => !decide (key r = k))) hks hcov'
    simp only [List.map_cons, List.flatten_cons]
    rw [hmapeq]
    refine List.Perm.trans ((hh _).append htail) ?_
    rw [← List.map_append]
    exact (List.filter_append_perm _ l).map f

/-! ## Helper lemmas about the filter engine and the projections -/

/-- When every dropdown is unset, no query fragments are built. -/
theorem pipelineQueries_eq_nil :
    ∀ sv : List (String × Option String), (∀ pv ∈ sv, pv.2 = none) →
      pipelineQueries sv = [] := by
  intro sv
  induction sv with
  | nil => intro _; rfl
  | cons pv t ih =>
    intro hnone
    have h1 : pv.2 = none := hnone pv (List.mem_cons_self pv t)
    have h2 := ih (fun x hx => hnone x (List.mem_cons_of_mem pv hx))
    simp [pipelineQueries, List.filterMap_cons, h1]
    simpa [pipelineQueries] using h2

/-- Satisfying every constructed query fragment is the spec's "every present
pipeline-status equality predicate". -/
theorem rowMatchesQueries_pipelineQueries (r : OverviewRow) :
    ∀ sv : List (String × Option String),
      rowMatchesQueries r (pipelineQueries sv) = rowSatisfiesConstraints r sv := by
  intro sv
  induction sv with
  | nil => rfl
  | cons pv t ih =>
    rcases pv with ⟨p, v⟩
    cases v with
    | none =>
      have h1 : pipelineQueries ((p, (none : Option String)) :: t) = pipelineQueries t := by
        simp [pipelineQueries, List.filterMap_cons]
      have h2 : rowSatisfiesConstraints r ((p, (none : Option String)) :: t) =
          rowSatisfiesConstraints r t := by
        simp [rowSatisfiesConstraints, List.all_cons]
      rw [h1, h2, ih]
    | some st =>
      have h1 : pipelineQueries ((p, some st) :: t) = (p, st) :: pipelineQueries t := by
        simp [pipelineQueries, List.filterMap_cons]
      have h2 : rowSatisfiesConstraints r ((p, some st) :: t) =
          (decide (r.statuses.lookup p = some st) && rowSatisfiesConstraints r t) := by
        simp [rowSatisfiesConstraints, List.all_cons]
      have h3 : rowMatchesQueries r ((p, st) :: pipelineQueries t) =
          (decide (r.statuses.lookup p = some st) && rowMatchesQueries r (pipelineQueries t)) := by
        simp [rowMatchesQueries, List.all_cons]
      rw [h1, h3, h2, ih]

/-- A filtered list is non-empty exactly when some element passes the
predicate. -/
theorem not_isEmpty_filter_eq_any (p : α → Bool) :
    ∀ l : List α, (!(l.filter p).isEmpty) = l.any p := by
  intro l
  induction l with
  | nil => rfl
  | cons a t ih =>
    cases h : p a with
    | true => simp [List.filter_cons, h]
    | false => simp [List.filter_cons, h, ih]

/-- `any` over a filtered list is `any` of the conjunction. -/
theorem any_filter_eq (p q : α → Bool) :
    ∀ l : List α, (l.filter q).any p = l.any (fun a => q a && p a) := by
  intro l
  induction l with
  | nil => rfl
  | cons a t ih =>
    cases h : q a with
    | true => simp [List.filter_cons, h, ih]
    | false => simp [List.filter_cons, h, ih]

/-- A participant id that occurs in the table is in `matching_subs` exactly
when its `groupby` group passes the per-participant AND test. -/
theorem mem_matching_subs {data : List OverviewRow} {session_values : List Nat}
    {qs : List (String × String)} {pid : String}
    (hpid : pid ∈ data.map (fun r => r.participant_id)) :
    pid ∈ matching_subs data session_values qs ↔
      subQualifies session_values qs (sub_of data pid) = true := by
  unfold matching_subs
  rw [List.mem_filter]
  constructor
  · rintro ⟨_, h2⟩; exact h2
  · intro h
    exact ⟨mem_sortBy.mpr (List.mem_dedup.mpr hpid), h⟩

/-- The per-participant test of the source's AND branch coincides with the
spec's "for every selected session there exists a matching row of that
participant" predicate. -/
theorem subQualifies_eq_participantQualifies (data : List OverviewRow)
    (session_values : List Nat) (status_values : List (String × Option String))
    (pid : String) :
    subQualifies session_values (pipelineQueries status_values) (sub_of data pid) =
      participantQualifies data session_values status_values pid := by
  have hB : (fun s : Nat =>
      !(((sub_of data pid).filter (fun r => decide (r.session = s) &&
          rowMatchesQueries r (pipelineQueries status_values))).isEmpty)) =
      (fun s : Nat =>
        data.any (fun r => decide (r.participant_id = pid) && decide (r.session = s) &&
          rowSatisfiesConstraints r status_values)) := by
    funext s
    rw [not_isEmpty_filter_eq_any]
    unfold sub_of
    rw [any_filter_eq]
    congr 1
    funext r
    rw [rowMatchesQueries_pipelineQueries, ← Bool.and_assoc]
  unfold subQualifies participantQualifies
  rw [hB]
  -- absorb the session-presence precheck: it is implied by the per-session
  -- non-empty query result
  cases hS : session_values.all (fun s =>
      data.any (fun r => decide (r.participant_id = pid) && decide (r.session = s) &&
        rowSatisfiesConstraints r status_values)) with
  | false => rw [Bool.and_false]
  | true =>
    rw [Bool.and_true]
    rw [List.all_eq_true]
    intro s hs
    have hsS := List.all_eq_true.mp hS s hs
    rcases List.any_eq_true.mp hsS with ⟨r, hrd, hr⟩
    simp only [Bool.and_eq_true] at hr
    rcases hr with ⟨⟨hrpid, hrs⟩, _⟩
    have hrsub : r ∈ sub_of data pid := List.mem_filter.mpr ⟨hrd, hrpid⟩
    have : s ∈ (sub_of data pid).map (fun r => r.session) :=
      List.mem_map.mpr ⟨r, hrsub, of_decide_eq_true hrs⟩
    exact decide_eq_true (List.mem_dedup.mpr this)

/-- Every per-pipeline identity projection is sorted by the
`(participant, session)` order, because `extract_pipelines` sorts each group
by exactly that key. -/
theorem idProjections_pairwise (bagel : List BagelRow) :
    ∀ proj ∈ idProjections bagel, proj.Pairwise (fun a b => idLe a b = true) := by
  intro proj hproj
  unfold idProjections at hproj
  rcases List.mem_map.mp hproj with ⟨p, hp, hpe⟩
  unfold extract_pipelines at hp
  rcases List.mem_map.mp hp with ⟨nv, hnv, hpe2⟩
  subst hpe2
  subst hpe
  exact List.Pairwise.map pRowPair (fun a b hab => hab)
    (List.Pairwise.map dropPipe (fun a b hab => hab)
      (pairwise_sortBy rowLe_total rowLe_trans _))

/-! ## Claim theorems -/

/-- **C1.** With sessions selected and operator AND, `filter_records` keeps
exactly the rows whose participant qualifies — for every selected session
the participant has a row at that session satisfying every present
pipeline-status predicate — and whose session is selected (the whole
qualifying participant is kept, not just the literally matching rows); on
the P1/P2 dataset it returns only P1's two rows and excludes P2 entirely. -/
theorem filter_records_and_subject_level :
    (∀ (data : List OverviewRow) (session_values : List Nat)
        (status_values : List (String × Option String)),
      session_values ≠ [] → ConstraintsWellFormed data status_values →
      filter_records data session_values "AND" status_values =
        .ok (data.filter (fun r =>
          participantQualifies data session_values status_values r.participant_id &&
          decide (r.session ∈ session_values)))) ∧
    filter_records exData [1, 2] "AND" exStatus = .ok [p1s1, p1s2] := by
  constructor
  · intro data session_values status_values hne _hwf
    have hempty : session_values.isEmpty = false := by
      cases session_values with
      | nil => exact absurd rfl hne
      | cons s t => rfl
    simp only [filter_records, hempty, Bool.false_eq_true, if_false, if_true]
    congr 1
    apply List.filter_congr
    intro r hr
    have hpid : r.participant_id ∈ data.map (fun r => r.participant_id) :=
      List.mem_map.mpr ⟨r, hr, rfl⟩
    have h1 : decide (r.participant_id ∈
        matching_subs data session_values (pipelineQueries status_values)) =
        subQualifies session_values (pipelineQueries status_values)
          (sub_of data r.participant_id) := by
      cases hq : subQualifies session_values (pipelineQueries status_values)
          (sub_of data r.participant_id) with
      | true => exact decide_eq_true ((mem_matching_subs hpid).mpr hq)
      | false =>
        exact decide_eq_false (fun hm =>
          absurd ((mem_matching_subs hpid).mp hm) (by simp [hq]))
    rw [h1, subQualifies_eq_participantQualifies]
  · rfl

/-- Witness for C1 at the concrete P1/P2 dataset. -/
theorem filter_records_and_subject_level_witness :
    filter_records exData [1, 2] "AND" exStatus =
      .ok (exData.filter (fun r =>
        participantQualifies exData [1, 2] exStatus r.participant_id &&
        decide (r.session ∈ [1, 2]))) :=
  filter_records_and_subject_level.1 exData [1, 2] exStatus (by decide)
    (by intro r hr pv hpv h; fin_cases hr <;> fin_cases hpv <;> rfl)

/-- **C2.** With sessions selected and operator OR, `filter_records` keeps
exactly the rows (no participant-level aggregation) whose session is
selected and which satisfy every present pipeline-status equality predicate;
on the P1/P2 dataset it returns P1's two rows and P2's session-1 row. -/
theorem filter_records_or_row_level :
    (∀ (data : List OverviewRow) (session_values : List Nat)
        (status_values : List (String × Option String)),
      session_values ≠ [] → ConstraintsWellFormed data status_values →
      filter_records data session_values "OR" status_values =
        .ok (data.filter (fun r =>
          decide (r.session ∈ session_values) &&
          rowSatisfiesConstraints r status_values))) ∧
    filter_records exData [1, 2] "OR" exStatus = .ok [p1s1, p1s2, p2s1] := by
  constructor
  · intro data session_values status_values hne _hwf
    have hempty : session_values.isEmpty = false := by
      cases session_values with
      | nil => exact absurd rfl hne
      | cons s t => rfl
    simp only [filter_records, hempty, Bool.false_eq_true, if_false, if_true]
    rw [if_neg (show ¬("OR" : String) = "AND" by decide)]
    congr 1
    apply List.filter_congr
    intro r _
    rw [rowMatchesQueries_pipelineQueries]
  · rfl

/-- Witness for C2 at the concrete P1/P2 dataset. -/
theorem filter_records_or_row_level_witness :
    filter_records exData [1, 2] "OR" exStatus =
      .ok (exData.filter (fun r =>
        decide (r.session ∈ [1, 2]) && rowSatisfiesConstraints r exStatus)) :=
  filter_records_or_row_level.1 exData [1, 2] exStatus (by decide)
    (by intro r hr pv hpv h; fin_cases hr <;> fin_cases hpv <;> rfl)

/-- **C3.** The long-to-wide transformation fails with the pivot's
`ShapeError` whenever two rows share the full pivot key (in particular two
rows with the same participant, session, pipeline name and version but
different statuses), rather than silently keeping one of the values; and on
any input whose pivot keys are duplicate-free it succeeds with exactly one
wide row per distinct identity-key value. -/
theorem pipelines_overview_pivot :
    (∀ bagel : List BagelRow, ∀ i j : Fin bagel.length, i ≠ j →
      pivotKey (bagel.get i) = pivotKey (bagel.get j) →
      (bagel.get i).pipeline_complete ≠ (bagel.get j).pipeline_complete →
      get_pipelines_overview bagel = .error .shapeError) ∧
    (∀ bagel : List BagelRow, (bagel.map pivotKey).Nodup →
      ∃ rows : List WideRow, get_pipelines_overview bagel = .ok rows ∧
        (rows.map (fun w => (w.participant_id, w.session))).Nodup ∧
        (∀ idv : String × Nat,
          idv ∈ rows.map (fun w => (w.participant_id, w.session)) ↔
            idv ∈ bagel.map idPair)) ∧
    get_pipelines_overview exBagelDup = .error .shapeError := by
  refine ⟨?_, ?_, ?_⟩
  · intro bagel i j hij hkey _hval
    have hnd : ¬ (bagel.map pivotKey).Nodup := by
      intro hnd
      have hinj := List.nodup_iff_injective_get.mp hnd
      have hlt : ∀ k : Fin bagel.length, (k : Nat) < (bagel.map pivotKey).length := by
        intro k
        simp only [List.length_map]
        exact k.isLt
      have e1 : (bagel.map pivotKey).get ⟨i, hlt i⟩ = pivotKey (bagel.get i) := by
        simp [List.get_eq_getElem, List.getElem_map]
      have e2 : (bagel.map pivotKey).get ⟨j, hlt j⟩ = pivotKey (bagel.get j) := by
        simp [List.get_eq_getElem, List.getElem_map]
      have heq : (bagel.map pivotKey).get ⟨i, hlt i⟩ = (bagel.map pivotKey).get ⟨j, hlt j⟩ := by
        rw [e1, e2, hkey]
      have hfin := hinj heq
      exact hij (Fin.ext (by simpa using congrArg Fin.val hfin))
    simp [get_pipelines_overview, hnd]
  · intro bagel hnd
    have hmap : (((sortedIds bagel).map (fun idv : String × Nat =>
        (⟨idv.1, idv.2, (sortedLabels bagel).map
          (fun lab => (lab, cellValue bagel idv lab))⟩ : WideRow))).map
        (fun w => (w.participant_id, w.session))) = sortedIds bagel := by
      have h1 : ((fun w : WideRow => (w.participant_id, w.session)) ∘
          (fun idv : String × Nat =>
            (⟨idv.1, idv.2, (sortedLabels bagel).map
              (fun lab => (lab, cellValue bagel idv lab))⟩ : WideRow))) =
          (fun idv : String × Nat => idv) := by
        funext idv
        rfl
      rw [List.map_map, h1, List.map_id']
    refine ⟨(sortedIds bagel).map (fun idv : String × Nat =>
        (⟨idv.1, idv.2, (sortedLabels bagel).map
          (fun lab => (lab, cellValue bagel idv lab))⟩ : WideRow)), ?_, ?_, ?_⟩
    · unfold get_pipelines_overview
      rw [if_pos hnd]
    · rw [hmap]
      exact nodup_sortBy.mpr (List.nodup_dedup _)
    · intro idv
      rw [hmap]
      unfold sortedIds
      rw [mem_sortBy, List.mem_dedup]
  · rfl

/-- Witness for C3 at the concrete duplicate-key bagel: rows 0 and 1 share
the pivot key and disagree on status, so the pivot raises. -/
theorem pipelines_overview_pivot_witness :
    get_pipelines_overview exBagelDup = .error .shapeError :=
  pipelines_overview_pivot.1 exBagelDup ⟨0, by decide⟩ ⟨1, by decide⟩
    (by decide) (by decide) (by decide)

/-- **C4.** `are_subjects_same_across_pipelines` returns true exactly when
every per-pipeline sub-table's identity projection equals, as a multiset
(duplicates significant, stated via permutation), the first sub-table's
projection; and when it returns false, ingest fails with the consistency
error and yields no overview (the concrete two-pipeline dataset where
fmriprep has participant X at session 1 but freesurfer does not is
rejected). -/
theorem subjects_consistency_check :
    (∀ bagel : List BagelRow,
      (are_subjects_same_across_pipelines bagel = true ↔
        ∀ proj ∈ idProjections bagel,
          List.Perm proj ((idProjections bagel).headD []))) ∧
    (∀ (filename : String) (bagel : List BagelRow),
      strContains filename ".csv" = true →
      are_subjects_same_across_pipelines bagel = false →
      parse_csv_contents filename bagel = .error .consistencyError) ∧
    parse_csv_contents "bagel.csv" exBagelInconsistent = .error .consistencyError := by
  refine ⟨?_, ?_, ?_⟩
  · intro bagel
    cases hproj : idProjections bagel with
    | nil =>
      constructor
      · intro _ proj hproj2
        exact absurd hproj2 (List.not_mem_nil proj)
      · intro _
        simp [are_subjects_same_across_pipelines, hproj]
    | cons p0 rest =>
      constructor
      · intro hall proj hmem
        have hall2 : (p0 :: rest).all (fun pr => decide (pr = p0)) = true := by
          have := hall
          unfold are_subjects_same_across_pipelines at this
          rw [hproj] at this
          exact this
        have heq : proj = p0 := of_decide_eq_true (List.all_eq_true.mp hall2 proj hmem)
        rw [List.headD_cons, heq]
      · intro hperm
        unfold are_subjects_same_across_pipelines
        rw [hproj]
        rw [List.all_eq_true]
        intro proj hmem
        apply decide_eq_true
        have h1 := hperm proj hmem
        rw [List.headD_cons] at h1
        have hs1 : proj.Pairwise (fun a b => idLe a b = true) :=
          idProjections_pairwise bagel proj (by rw [hproj]; exact hmem)
        have hs2 : p0.Pairwise (fun a b => idLe a b = true) :=
          idProjections_pairwise bagel p0 (by rw [hproj]; exact List.mem_cons_self p0 rest)
        exact eq_of_perm_of_pairwise_idLe h1 hs1 hs2
  · intro filename bagel hcsv hfalse
    simp [parse_csv_contents, hcsv, hfalse]
  · rfl

/-- Witness for C4's consistency-error branch at a concrete csv-named
upload of the inconsistent dataset. -/
theorem subjects_consistency_check_witness :
    parse_csv_contents "proc_status.csv" exBagelInconsistent =
      .error .consistencyError :=
  subjects_consistency_check.2.1 "proc_status.csv" exBagelInconsistent
    (by decide) (by decide)

/-- **C5.** `extract_pipelines` partitions the long-form rows into one
sub-table per distinct (pipeline name, pipeline version) pair: the
concatenation of the sub-tables is a permutation of the input rows (with the
grouping columns dropped), so every input row lands in exactly one sub-table
and the sub-table row counts sum to the input row count; each sub-table is
labelled `"{name}-{version}"` and its rows are sorted ascending by
(participant, session). -/
theorem extract_pipelines_partition (bagel : List BagelRow) :
    List.Perm ((extract_pipelines bagel).map (fun p => p.2)).flatten
      (bagel.map dropPipe) ∧
    ((extract_pipelines bagel).map (fun p => p.2.length)).sum = bagel.length ∧
    (extract_pipelines bagel).map (fun p => p.1) =
      (pipelineKeys bagel).map pipelineLabel ∧
    ∀ p ∈ extract_pipelines bagel,
      p.2.Pairwise (fun a b => idLe (pRowPair a) (pRowPair b) = true) := by
  have hkeysnd : (pipelineKeys bagel).Nodup :=
    nodup_sortBy.mpr (List.nodup_dedup _)
  have hcov : ∀ r ∈ bagel, pKey r ∈ pipelineKeys bagel := by
    intro r hr
    exact mem_sortBy.mpr (List.mem_dedup.mpr (List.mem_map_of_mem _ hr))
  have hperm : List.Perm ((extract_pipelines bagel).map (fun p => p.2)).flatten
      (bagel.map dropPipe) := by
    have hgen := join_groups_perm pKey
      (fun g => (sortBy rowLe g).map dropPipe) dropPipe
      (fun g => (perm_sortBy rowLe g).map dropPipe)
      (pipelineKeys bagel) bagel hkeysnd hcov
    have heq : (extract_pipelines bagel).map (fun p => p.2) =
        (pipelineKeys bagel).map (fun k =>
          (sortBy rowLe (bagel.filter (fun r => decide (pKey r = k)))).map dropPipe) := by
      unfold extract_pipelines
      rw [List.map_map]
      rfl
    rw [heq]
    exact hgen
  refine ⟨hperm, ?_, ?_, ?_⟩
  · have hlen := hperm.length_eq
    rw [List.length_flatten, List.map_map] at hlen
    rw [List.length_map] at hlen
    simpa using hlen
  · unfold extract_pipelines
    rw [List.map_map]
    rfl
  · intro p hp
    unfold extract_pipelines at hp
    rcases List.mem_map.mp hp with ⟨nv, hnv, hpe2⟩
    subst hpe2
    exact List.Pairwise.map dropPipe (fun a b hab => hab)
      (pairwise_sortBy rowLe_total rowLe_trans _)

/-- Witness for C5 at the concrete two-pipeline bagel: row counts are
conserved and the fmriprep sub-table (a member of the output) is sorted. -/
theorem extract_pipelines_partition_witness :
    ((extract_pipelines exBagel).map (fun p => p.2.length)).sum = exBagel.length ∧
    (("fmriprep-20.2.7",
      [(⟨"X", 1, "SUCCESS"⟩ : PipelineRow), ⟨"Y", 1, "FAIL"⟩]) :
        String × List PipelineRow).2.Pairwise
      (fun a b => idLe (pRowPair a) (pRowPair b) = true) :=
  ⟨(extract_pipelines_partition exBagel).2.1,
   (extract_pipelines_partition exBagel).2.2.2 _ (by decide)⟩

/-- **C6 (counterexample).** The claim says a filename whose extension is not
a CSV suffix is always rejected with `FormatError`; but the source's gate is
the substring test `".csv" in filename`, so the `.txt`-suffixed filename
`"data.csv.txt"` is accepted and parsed successfully. -/
theorem parse_csv_contents_suffix_counterexample :
    parse_csv_contents "data.csv.txt" ([] : List BagelRow) = .ok ([], []) := by
  rfl

/-- **C6 (amended).** Ingest acceptance is decided by whether `".csv"` occurs
as a substring of the filename: a filename without that substring is rejected
with `FormatError` and no data, and a filename with it is never rejected with
`FormatError` (even when its actual extension is not `.csv`). -/
theorem parse_csv_contents_substring_gate
    (filename : String) (bagel : List BagelRow) :
    (strContains filename ".csv" = false →
      parse_csv_contents filename bagel = .error .formatError) ∧
    (strContains filename ".csv" = true →
      parse_csv_contents filename bagel ≠ .error .formatError) := by
  constructor
  · intro h
    simp [parse_csv_contents, h]
  · intro h
    simp only [parse_csv_contents, h, if_true]
    by_cases hc : are_subjects_same_across_pipelines bagel = true
    · simp only [hc, if_true]
      cases hov : get_pipelines_overview bagel with
      | ok overview_df => simp
      | error e =>
        simp only [get_pipelines_overview] at hov
        split at hov
        · simp at hov
        · injection hov with h
          subst h
          simp
    · simp [hc]

/-- Witness for C6 (amended): a `.txt` filename with no `.csv` substring is
rejected, and the `.csv.txt` one is not `FormatError`-rejected. -/
theorem parse_csv_contents_substring_gate_witness :
    parse_csv_contents "data.txt" exBagel = .error .formatError ∧
    parse_csv_contents "data.csv.txt" exBagel ≠ .error .formatError :=
  ⟨(parse_csv_contents_substring_gate "data.txt" exBagel).1 (by decide),
   (parse_csv_contents_substring_gate "data.csv.txt" exBagel).2 (by decide)⟩

/-- **C7.** For every overview table and every non-empty list of selected
session labels, calling `filter_records` with a combination operator that is
neither AND nor OR fails (the source leaves `query` unassigned, which raises
at evaluation time; the spec's name for this failure class is
`InvalidOperatorError`) rather than returning any data. -/
theorem filter_records_unrecognized_operator
    (data : List OverviewRow) (session_values : List Nat) (operator_value : String)
    (status_values : List (String × Option String))
    (hne : session_values ≠ [])
    (hand : operator_value ≠ "AND") (hor : operator_value ≠ "OR") :
    filter_records data session_values operator_value status_values =
      .error .invalidOperator := by
  have hempty : session_values.isEmpty = false := by
    cases session_values with
    | nil => exact absurd rfl hne
    | cons s t => rfl
  simp [filter_records, hempty, hand, hor]

/-- Witness for C7 at a concrete call: operator "XOR" errors out. -/
theorem filter_records_unrecognized_operator_witness :
    filter_records exData [1, 2] "XOR" exStatus = .error .invalidOperator :=
  filter_records_unrecognized_operator exData [1, 2] "XOR" exStatus
    (by decide) (by decide) (by decide)

/-- **C8.** The summary counts are pure functions of a table snapshot:
the unique-participant count is 0 without a `participant_id` column, the
unique-record count is the number of distinct `(participant_id, session)`
pairs and is 0 when either column is absent, the {A,A,B}/{1,2,1} example
gives counts 2 / 3 / 2, and a zero-row table yields zero counts without
raising. -/
theorem summary_counts :
    (∀ data : DFrame, "participant_id" ∉ data.columns →
      count_unique_subjects data = 0) ∧
    (∀ data : DFrame, "participant_id" ∉ data.columns ∨ "session" ∉ data.columns →
      count_unique_records data = 0) ∧
    (count_unique_subjects exSummary = 2 ∧ count_unique_records exSummary = 3 ∧
      session_nunique exSummary = some 2) ∧
    (∀ cols : List String, count_unique_subjects ⟨cols, []⟩ = 0 ∧
      count_unique_records ⟨cols, []⟩ = 0 ∧
      ("session" ∈ cols → session_nunique ⟨cols, []⟩ = some 0)) := by
  refine ⟨?_, ?_, ?_, ?_⟩
  · intro data h
    have hnone : data.columns.findIdx? (fun c => decide (c = "participant_id")) = none :=
      List.findIdx?_eq_none_iff.mpr (fun x hx => decide_eq_false (fun he => h (he ▸ hx)))
    simp [count_unique_subjects, hnone]
  · intro data h
    rcases h with h | h
    · have hnone : data.columns.findIdx? (fun c => decide (c = "participant_id")) = none :=
        List.findIdx?_eq_none_iff.mpr (fun x hx => decide_eq_false (fun he => h (he ▸ hx)))
      simp [count_unique_records, hnone]
    · have hnone : data.columns.findIdx? (fun c => decide (c = "session")) = none :=
        List.findIdx?_eq_none_iff.mpr (fun x hx => decide_eq_false (fun he => h (he ▸ hx)))
      cases h1 : data.columns.findIdx? (fun c => decide (c = "participant_id")) with
      | none => simp [count_unique_records, h1, hnone]
      | some i => simp [count_unique_records, h1, hnone]
  · refine ⟨by decide, by decide, by decide⟩
  · intro cols
    refine ⟨?_, ?_, ?_⟩
    · cases h : cols.findIdx? (fun c => decide (c = "participant_id")) with
      | none => simp [count_unique_subjects, h]
      | some i => simp [count_unique_subjects, h]
    · cases h1 : cols.findIdx? (fun c => decide (c = "participant_id")) with
      | none => simp [count_unique_records, h1]
      | some i =>
        cases h2 : cols.findIdx? (fun c => decide (c = "session")) with
        | none => simp [count_unique_records, h1, h2]
        | some j => simp [count_unique_records, h1, h2]
    · intro hs
      cases h : cols.findIdx? (fun c => decide (c = "session")) with
      | none =>
        have := List.findIdx?_eq_none_iff.mp h "session" hs
        simp at this
      | some j => simp [session_nunique, h]

/-- Witness for C8 at a concrete table without a participant column. -/
theorem summary_counts_witness :
    count_unique_subjects ⟨["session"], [["1"]]⟩ = 0 :=
  summary_counts.1 ⟨["session"], [["1"]]⟩ (by decide)

/-- **C9 (counterexample).** The claim quantifies over every filter criteria
under which no row matches; for the empty table with no session selection
and the single pipeline constraint absent, no row matches, yet
`filter_records` evaluates the empty query and raises instead of returning a
well-formed empty table. -/
theorem filter_records_empty_result_counterexample :
    filter_records ([] : List OverviewRow) [] "AND" [("fmriprep-20.2.7", none)] =
      .error .emptyQuery := by
  rfl

/-- **C9 (amended).** Whenever at least one active criterion is present — a
non-empty session selection together with operator AND or OR, or, with no
sessions selected, at least one pipeline-status constraint — `filter_records`
does not raise: it returns the input filtered by a row predicate, and when
that filter keeps no row the result is a well-formed empty table with
exactly the input's columns and zero rows whose summary counts are zero. -/
theorem filter_records_empty_result_stable
    (data : List OverviewRow) (session_values : List Nat) (operator_value : String)
    (status_values : List (String × Option String))
    (hsv : session_values = [] → pipelineQueries status_values ≠ [])
    (hop : session_values ≠ [] → operator_value = "AND" ∨ operator_value = "OR") :
    filter_records data session_values operator_value status_values =
      .ok (data.filter (criteriaPred data session_values operator_value status_values)) ∧
    ∀ pipelines : List String,
      (toDF pipelines (data.filter
        (criteriaPred data session_values operator_value status_values))).columns =
        (toDF pipelines data).columns ∧
      ((data.filter (criteriaPred data session_values operator_value status_values)).isEmpty
          = true →
        count_unique_subjects (toDF pipelines (data.filter
          (criteriaPred data session_values operator_value status_values))) = 0 ∧
        count_unique_records (toDF pipelines (data.filter
          (criteriaPred data session_values operator_value status_values))) = 0 ∧
        session_nunique (toDF pipelines (data.filter
          (criteriaPred data session_values operator_value status_values))) = some 0) := by
  have hcounts : ∀ (pipelines : List String) (rows : List OverviewRow),
      rows.isEmpty = true →
      count_unique_subjects (toDF pipelines rows) = 0 ∧
      count_unique_records (toDF pipelines rows) = 0 ∧
      session_nunique (toDF pipelines rows) = some 0 := by
    intro pipelines rows hrows
    have hr : rows = [] := by
      cases rows with
      | nil => rfl
      | cons a t => simp at hrows
    subst hr
    refine ⟨?_, ?_, ?_⟩
    · simp [toDF, count_unique_subjects, List.findIdx?_cons]
    · simp [toDF, count_unique_records, List.findIdx?_cons]
    · simp [toDF, session_nunique, List.findIdx?_cons]
  have hmain : filter_records data session_values operator_value status_values =
      .ok (data.filter (criteriaPred data session_values operator_value status_values)) := by
    cases hse : session_values with
    | nil =>
      subst hse
      have hq := hsv rfl
      have hqe : (pipelineQueries status_values).isEmpty = false := by
        cases hpq : pipelineQueries status_values with
        | nil => exact absurd hpq hq
        | cons q qs => rfl
      have hp : criteriaPred data [] operator_value status_values =
          (fun r => rowMatchesQueries r (pipelineQueries status_values)) := by
        funext r
        simp [criteriaPred]
      rw [hp]
      simp [filter_records, hqe]
    | cons s t =>
      subst hse
      rcases hop (by simp) with hA | hO
      · subst hA
        have hp : criteriaPred data (s :: t) "AND" status_values =
            (fun r => decide (r.participant_id ∈
                matching_subs data (s :: t) (pipelineQueries status_values)) &&
              decide (r.session ∈ s :: t)) := by
          funext r
          simp [criteriaPred]
        rw [hp]
        simp [filter_records]
      · subst hO
        have hne2 : ("OR" : String) ≠ "AND" := by decide
        have hp : criteriaPred data (s :: t) "OR" status_values =
            (fun r => decide (r.session ∈ s :: t) &&
              rowMatchesQueries r (pipelineQueries status_values)) := by
          funext r
          simp [criteriaPred, hne2]
        rw [hp]
        simp [filter_records, hne2]
  refine ⟨hmain, fun pipelines => ⟨rfl, fun he => hcounts pipelines _ he⟩⟩

/-- Witness for C9 (amended) at a concrete no-match call: session 3 is
selected but absent from the table, so the AND filter keeps nothing. -/
theorem filter_records_empty_result_stable_witness :
    filter_records exData [3] "AND" exStatus =
      .ok (exData.filter (criteriaPred exData [3] "AND" exStatus)) ∧
    count_unique_subjects (toDF ["fmriprep-20.2.7"] (exData.filter
      (criteriaPred exData [3] "AND" exStatus))) = 0 := by
  have h := filter_records_empty_result_stable exData [3] "AND" exStatus
    (by intro h; exact absurd h (by decide)) (fun _ => Or.inl rfl)
  exact ⟨h.1, ((h.2 ["fmriprep-20.2.7"]).2 (by rfl)).1⟩

/-- **C10.** With an empty selected-session list and every pipeline
constraint absent, `filter_records` evaluates the empty constructed query and
errors (pandas raises `ValueError`); it does not return the input table
unfiltered, so `update_outputs` guards this case before calling it. -/
theorem filter_records_no_criteria
    (data : List OverviewRow) (operator_value : String)
    (status_values : List (String × Option String))
    (hnone : ∀ pv ∈ status_values, pv.2 = none) :
    filter_records data [] operator_value status_values = .error .emptyQuery := by
  have hq := pipelineQueries_eq_nil status_values hnone
  simp [filter_records, hq]

/-- Witness for C10 at a concrete call: both dropdowns unset, no sessions. -/
theorem filter_records_no_criteria_witness :
    filter_records exData [] "AND"
      [("fmriprep-20.2.7", none), ("freesurfer-6.0.1", none)] = .error .emptyQuery :=
  filter_records_no_criteria exData "AND"
    [("fmriprep-20.2.7", none), ("freesurfer-6.0.1", none)] (by decide)

end ProcDash
